import Mathlib

/-!
Verification development for the MariaDB MCP server core
(`src/connection.ts`): configuration resolution from the environment,
connection-pool lifecycle, query execution with guaranteed lease release,
row-count capping, and bigint normalization.

The TypeScript source is shallowly embedded: JavaScript values that can
appear in a driver result are the inductive `JSValue`; the module-level
mutable variables `pool` and `connection` become the explicit state
`MState`; the mariadb driver is an oracle `Driver` supplying the outcome
of each network call; observable interactions with the pool and the
database are recorded as an `Event` trace.  Thrown exceptions are
`Except.error` carrying the thrown message.
-/

namespace MariadbMcp

/-- JavaScript runtime values that can occur in a driver result set.
`vbig` is a JS bigint carrying its exact integer value; `vnum` is a JS
number whose mathematical value is recorded as an integer (IEEE-754
rounding of out-of-range coercions is not modelled; no claim depends on
the rounded value, only on whether an error is raised). -/
inductive JSValue : Type where
  | vnull : JSValue
  | vbool : Bool → JSValue
  | vnum : Int → JSValue
  | vbig : Int → JSValue
  | vstr : String → JSValue
  | varr : List JSValue → JSValue
  | vobj : List (String × JSValue) → JSValue

/-- Process environment: each `MARIADB_*` variable is `none` when unset.
Field order and names follow the reads in `getConfigFromEnv`. -/
structure Env : Type where
  host : Option String := none
  portStr : Option String := none
  user : Option String := none
  password : Option String := none
  database : Option String := none
  allowInsert : Option String := none
  allowUpdate : Option String := none
  allowDelete : Option String := none
  bigIntAsNumber : Option String := none
  decimalAsNumber : Option String := none
  checkNumberRange : Option String := none
  deriving DecidableEq

/-- JavaScript falsiness of a `string | undefined` value: `undefined` and
the empty string are falsy; every other string is truthy. -/
def jsFalsy (o : Option String) : Bool :=
  o.getD "" = ""

/-- Decimal `parseInt(s, 10)`: skip leading whitespace, read an optional
sign, then a maximal digit prefix; `none` models the `NaN` result when no
digit is found. -/
def jsParseInt (s : String) : Option Int :=
  let cs := s.toList.dropWhile fun c => c = ' ' ∨ c = '\t' ∨ c = '\n' ∨ c = '\r'
  let signAndRest : Int × List Char :=
    match cs with
    | '-' :: rest => (-1, rest)
    | '+' :: rest => (1, rest)
    | _ => (1, cs)
  let digits := signAndRest.2.takeWhile Char.isDigit
  if digits.isEmpty then none
  else some (signAndRest.1 * (digits.foldl (fun a c => a * 10 + (c.toNat - 48)) 0 : Nat))

/-- Configuration record produced by `getConfigFromEnv` (shape of
`MariaDBConfig` in `types.ts` as used by `connection.ts`).  `port = none`
models a `NaN` port from `parseInt`. -/
structure MariaDBConfig : Type where
  host : String
  port : Option Int
  user : String
  password : String
  database : Option String
  allow_insert : Bool
  allow_update : Bool
  allow_delete : Bool
  big_int_as_number : Bool
  decimal_as_number : Bool
  check_number_range : Bool
  deriving DecidableEq

/-- Embedding of `getConfigFromEnv`: reads the environment, derives the
boolean flags by strict comparison with the string true, rejects a falsy
host, user or password (in that order) with the exact thrown message, and
defaults the port to 3306 when the port variable is falsy. -/
def getConfigFromEnv (env : Env) : Except String MariaDBConfig :=
  let allow_insert := env.allowInsert = some "true"
  let allow_update := env.allowUpdate = some "true"
  let allow_delete := env.allowDelete = some "true"
  let big_int_as_number := env.bigIntAsNumber = some "true"
  let decimal_as_number := env.decimalAsNumber = some "true"
  let check_number_range := env.checkNumberRange = some "true"
  if jsFalsy env.host then Except.error "MARIADB_HOST environment variable is required"
  else if jsFalsy env.user then Except.error "MARIADB_USER environment variable is required"
  else if jsFalsy env.password then Except.error "MARIADB_PASSWORD environment variable is required"
  else
    let port := if jsFalsy env.portStr then some 3306 else jsParseInt (env.portStr.getD "")
    Except.ok
      { host := env.host.getD ""
        port := port
        user := env.user.getD ""
        password := env.password.getD ""
        database := env.database
        allow_insert := allow_insert
        allow_update := allow_update
        allow_delete := allow_delete
        big_int_as_number := big_int_as_number
        decimal_as_number := decimal_as_number
        check_number_range := check_number_range }

/-- The constant `MAX_SAFE = BigInt(Number.MAX_SAFE_INTEGER)`. -/
def MAX_SAFE : Int := 9007199254740991

/-- Default connection and statement timeout in milliseconds. -/
def DEFAULT_TIMEOUT : Nat := 10000

/-- Default row limit for query results. -/
def DEFAULT_ROW_LIMIT : Nat := 1000

/-- Embedding of `convertScalar`: a bigint is range-checked (strictly
above `MAX_SAFE` or strictly below `-MAX_SAFE`) exactly when the
`MARIADB_CHECK_NUMBER_RANGE` environment variable equals the string true,
throwing the source's message; otherwise it is coerced with `Number(v)`.
Every non-bigint value is returned unchanged. -/
def convertScalar (env : Env) (v : JSValue) : Except String JSValue :=
  match v with
  | JSValue.vbig i =>
      if env.checkNumberRange = some "true" ∧ (MAX_SAFE < i ∨ i < -MAX_SAFE) then
        Except.error ("BIGINT out of safe JS range: " ++ toString i)
      else
        Except.ok (JSValue.vnum i)
  | w => Except.ok w

/-- Conversion of the field values of a record, in key order, stopping at
the first thrown error: the loop body `row[k] = convertScalar(row[k])`. -/
def convertFields (env : Env) : List (String × JSValue) → Except String (List (String × JSValue))
  | [] => Except.ok []
  | (k, v) :: rest =>
    match convertScalar env v with
    | Except.error e => Except.error e
    | Except.ok v' =>
      match convertFields env rest with
      | Except.error e => Except.error e
      | Except.ok rest' => Except.ok ((k, v') :: rest')

mutual

/-- Embedding of `normalizeRow`: an array is normalized element-wise, an
object has `convertScalar` applied to each of its field values, and any
other value (including a bare bigint, which is not `typeof object`) is
returned unchanged. -/
def normalizeRow (env : Env) : JSValue → Except String JSValue
  | JSValue.varr xs =>
    match normalizeList env xs with
    | Except.error e => Except.error e
    | Except.ok ys => Except.ok (JSValue.varr ys)
  | JSValue.vobj fs =>
    match convertFields env fs with
    | Except.error e => Except.error e
    | Except.ok fs' => Except.ok (JSValue.vobj fs')
  | v => Except.ok v

/-- Element-wise normalization of an array, left to right, stopping at
the first thrown error: `row.map(normalizeRow)`. -/
def normalizeList (env : Env) : List JSValue → Except String (List JSValue)
  | [] => Except.ok []
  | x :: xs =>
    match normalizeRow env x with
    | Except.error e => Except.error e
    | Except.ok y =>
      match normalizeList env xs with
      | Except.error e => Except.error e
      | Except.ok ys => Except.ok (y :: ys)

end

/-- A pool instance: `id` gives object identity (which physical pool this
is), the remaining fields are the options passed to `mariadb.createPool`,
and `closed` records whether `pool.end()` has been called on it. -/
structure Pool : Type where
  id : Nat
  host : String
  port : Option Int
  user : String
  password : String
  database : Option String
  connectionLimit : Nat
  connectTimeout : Nat
  bigIntAsNumber : Bool
  decimalAsNumber : Bool
  checkNumberRange : Bool
  closed : Bool
  deriving DecidableEq

/-- The module-level mutable state of `connection.ts`: the singleton
`pool` and the shared `connection` lease (identified by a lease id).
`nextPoolId` and `nextLeaseId` supply fresh identities; `outstanding`
counts leases checked out of the pool and not yet released. -/
structure MState : Type where
  pool : Option Pool := none
  connection : Option Nat := none
  nextPoolId : Nat := 0
  nextLeaseId : Nat := 0
  outstanding : Nat := 0
  deriving DecidableEq

/-- The initial module state: no pool, no held lease. -/
def initState : MState := {}

/-- Observable interactions with the pool and the database server. -/
inductive Event : Type where
  | acquiredLease : Nat → Event
  | issuedUse : String → Event
  | issuedQuery : String → Event
  | releasedLease : Nat → Event
  deriving DecidableEq

/-- Raw driver result of the main query: the result value plus the `meta`
property the driver attaches to it (`none` when absent). -/
structure RawResult : Type where
  value : JSValue
  meta : Option (List String)

/-- Oracle for the mariadb driver: the outcome of a `getConnection` call
on an open pool, of a `USE` statement, and of the main query. -/
structure Driver : Type where
  getConnection : Except String Unit
  useDatabase : String → Except String Unit
  query : String → List JSValue → Except String RawResult

/-- The value returned by `executeQuery` on success: normalized rows and
field metadata, and nothing else (no error and no truncation flag). -/
structure QueryResult : Type where
  rows : JSValue
  fields : List String

/-- Embedding of `createConnectionPool`: resolve the configuration from
the environment first (a thrown configuration error propagates even when
a pool exists); then return the existing pool unchanged if one is
installed; otherwise install a fresh pool built from the configuration
with `connectionLimit` 2 and `connectTimeout` `DEFAULT_TIMEOUT`.
Helper: the options record passed to `mariadb.createPool`. -/
def freshPool (config : MariaDBConfig) (s : MState) : Pool :=
  { id := s.nextPoolId
    host := config.host
    port := config.port
    user := config.user
    password := config.password
    database := config.database
    connectionLimit := 2
    connectTimeout := DEFAULT_TIMEOUT
    bigIntAsNumber := config.big_int_as_number
    decimalAsNumber := config.decimal_as_number
    checkNumberRange := config.check_number_range
    closed := false }

def createConnectionPool (env : Env) (s : MState) : Except String Pool × MState :=
  match getConfigFromEnv env with
  | Except.error e => (Except.error e, s)
  | Except.ok config =>
    match s.pool with
    | some p => (Except.ok p, s)
    | none =>
      let p : Pool := freshPool config s
      (Except.ok p, { s with pool := some p, nextPoolId := s.nextPoolId + 1 })

/-- Modelled from the spec: the query validator `isAlloowedQuery` lives
in `validators.ts`, which is not part of the provided source.  Following
the spec, the leading keyword is extracted after stripping leading
whitespace and leading line (`--`) and block comments; SELECT, SHOW and
DESCRIBE are always allowed; INSERT, UPDATE and DELETE require the
matching policy flag; everything else, including an empty statement, is
rejected.  Helper: drop the remainder of a line comment. -/
def dropLineComment : List Char → List Char
  | [] => []
  | '\n' :: rest => rest
  | _ :: rest => dropLineComment rest

/-- Modelled from the spec: helper for the validator, drop a block
comment body up to and including the closing delimiter. -/
def dropBlockComment : List Char → List Char
  | [] => []
  | '*' :: '/' :: rest => rest
  | _ :: rest => dropBlockComment rest

/-- Modelled from the spec: helper for the validator, strip leading
whitespace and leading comments (fuel-bounded by the text length). -/
def stripLeadingTrivia : Nat → List Char → List Char
  | 0, cs => cs
  | fuel + 1, cs =>
    match cs with
    | [] => []
    | '-' :: '-' :: rest => stripLeadingTrivia fuel (dropLineComment rest)
    | '/' :: '*' :: rest => stripLeadingTrivia fuel (dropBlockComment rest)
    | c :: rest =>
      if c = ' ' ∨ c = '\t' ∨ c = '\n' ∨ c = '\r' then stripLeadingTrivia fuel rest
      else cs

/-- Modelled from the spec: the leading SQL keyword, upper-cased. -/
def leadingKeyword (sql : String) : String :=
  let cs := stripLeadingTrivia sql.length sql.toList
  String.mk ((cs.takeWhile Char.isAlpha).map Char.toUpper)

/-- Modelled from the spec: the allow-list classifier of `validators.ts`
(`isAlloowedQuery`, name as in the source import), parameterized by the
three policy flags. -/
def isAlloowedQuery (allowInsert allowUpdate allowDelete : Bool) (sql : String) : Bool :=
  let kw := leadingKeyword sql
  if kw = "SELECT" ∨ kw = "SHOW" ∨ kw = "DESCRIBE" then true
  else if kw = "INSERT" then allowInsert
  else if kw = "UPDATE" then allowUpdate
  else if kw = "DELETE" then allowDelete
  else false

/-- Modelled from the spec: the validator as called from `executeQuery`,
with the policy flags drawn from the environment the way
`getConfigFromEnv` derives them. -/
def isAlloowedQueryEnv (env : Env) (sql : String) : Bool :=
  isAlloowedQuery (env.allowInsert = some "true") (env.allowUpdate = some "true")
    (env.allowDelete = some "true") sql

/-- Lease acquisition inside the `try` block: reuse the held `connection`
if there is one; otherwise check a connection out of the pool (the driver
rejects `getConnection` on a pool that has been ended). -/
def acquireConn (drv : Driver) (p : Pool) (s : MState) :
    Except String Nat × MState × List Event :=
  match s.connection with
  | some l => (Except.ok l, s, [])
  | none =>
    if p.closed then (Except.error "pool is closed", s, [])
    else
      match drv.getConnection with
      | Except.error e => (Except.error e, s, [])
      | Except.ok _ =>
        (Except.ok s.nextLeaseId,
         { s with
            connection := some s.nextLeaseId
            nextLeaseId := s.nextLeaseId + 1
            outstanding := s.outstanding + 1 },
         [Event.acquiredLease s.nextLeaseId])

/-- The row-limit step: `Array.isArray(rows) && rows.length > 1000` keeps
only the first 1000 rows; every other result shape passes through. -/
def limitRows (rows : JSValue) : JSValue :=
  match rows with
  | JSValue.varr xs =>
      if xs.length > DEFAULT_ROW_LIMIT then JSValue.varr (xs.take DEFAULT_ROW_LIMIT)
      else JSValue.varr xs
  | v => v

/-- The body of the `try` block after lease acquisition (which, in the
source, touches no module state): optional `USE` statement, validation,
main query, row limit and normalization, in source order. -/
def queryBody (env : Env) (drv : Driver) (sql : String) (params : List JSValue)
    (database : Option String) (acqRes : Except String Nat) :
    Except String QueryResult × List Event :=
  match acqRes with
  | Except.error e => (Except.error e, [])
  | Except.ok _ =>
    let useStep : Except String Unit × List Event :=
      match database with
      | none => (Except.ok (), [])
      | some db => (drv.useDatabase db, [Event.issuedUse db])
    match useStep with
    | (Except.error e, tr) => (Except.error e, tr)
    | (Except.ok _, tr) =>
      if ¬ isAlloowedQueryEnv env sql then (Except.error "Query not allowed", tr)
      else
        match drv.query sql params with
        | Except.error e => (Except.error e, tr ++ [Event.issuedQuery sql])
        | Except.ok result =>
          let fields := result.meta.getD []
          let limitedRows := limitRows result.value
          match normalizeRow env limitedRows with
          | Except.error e => (Except.error e, tr ++ [Event.issuedQuery sql])
          | Except.ok nr =>
            (Except.ok { rows := nr, fields := fields }, tr ++ [Event.issuedQuery sql])

/-- The `finally` block: if a `connection` is held, release it back to
the pool and clear the reference; otherwise do nothing. -/
def releaseFinally (s : MState) : MState × List Event :=
  match s.connection with
  | some l =>
    ({ s with connection := none, outstanding := s.outstanding - 1 },
     [Event.releasedLease l])
  | none => (s, [])

/-- The `try` / `catch` / `finally` portion of `executeQuery`, run with
the pool in hand: acquire (or reuse) a lease, run the body, and release
in `finally` on every exit path of the body. -/
def executeWithPool (env : Env) (drv : Driver) (sql : String) (params : List JSValue)
    (database : Option String) (p : Pool) (s : MState) :
    Except String QueryResult × MState × List Event :=
  let acq := acquireConn drv p s
  let body := queryBody env drv sql params database acq.1
  let fin := releaseFinally acq.2.1
  (body.1, fin.1, acq.2.2 ++ body.2 ++ fin.2)

/-- Embedding of `executeQuery`: construct the pool first when none is
installed (a throw there happens before the `try`, so the `finally`
release does not run on that path), then run the guarded body. -/
def executeQuery (env : Env) (drv : Driver) (sql : String) (params : List JSValue)
    (database : Option String) (s : MState) :
    Except String QueryResult × MState × List Event :=
  match s.pool with
  | some p => executeWithPool env drv sql params database p s
  | none =>
    match createConnectionPool env s with
    | (Except.error e, s1) => (Except.error e, s1, [])
    | (Except.ok p, s1) => executeWithPool env drv sql params database p s1

/-- Embedding of `endConnection`: if a pool exists it is ended
(`pool.end()` closes the physical pool) — but the module-level `pool`
variable is left pointing at the now-closed pool, not cleared. -/
def endConnection (s : MState) : MState :=
  match s.pool with
  | some p => { s with pool := some { p with closed := true } }
  | none => s

/-- A value is a scalar when it is neither an array nor a record. -/
def isScalar : JSValue → Bool
  | JSValue.varr _ => false
  | JSValue.vobj _ => false
  | _ => true

/-- All field values of a record are scalars. -/
def scalarFields : List (String × JSValue) → Bool
  | [] => true
  | (_, v) :: rest => isScalar v && scalarFields rest

mutual

/-- The result-set shapes of the data model: arbitrarily nested arrays
whose leaves are records, every record field holding a scalar. -/
def ResultShaped : JSValue → Bool
  | JSValue.varr xs => resultShapedList xs
  | JSValue.vobj fs => scalarFields fs
  | _ => false

/-- Every element of a list is `ResultShaped`. -/
def resultShapedList : List JSValue → Bool
  | [] => true
  | x :: xs => ResultShaped x && resultShapedList xs

end

mutual

/-- Specification-side converter, written from the spec's words for
comparison with `normalizeRow`: replace every bigint anywhere in the
structure by the corresponding number and leave every other scalar, and
the structure itself, unchanged. -/
def bigToNum : JSValue → JSValue
  | JSValue.vbig i => JSValue.vnum i
  | JSValue.varr xs => JSValue.varr (bigToNumList xs)
  | JSValue.vobj fs => JSValue.vobj (bigToNumFields fs)
  | v => v

/-- Element-wise `bigToNum` on a list. -/
def bigToNumList : List JSValue → List JSValue
  | [] => []
  | x :: xs => bigToNum x :: bigToNumList xs

/-- Field-wise `bigToNum` on a record. -/
def bigToNumFields : List (String × JSValue) → List (String × JSValue)
  | [] => []
  | (k, v) :: rest => (k, bigToNum v) :: bigToNumFields rest

end

mutual

/-- No bigint occurs anywhere in the value. -/
def noBig : JSValue → Bool
  | JSValue.vbig _ => false
  | JSValue.varr xs => noBigList xs
  | JSValue.vobj fs => noBigFields fs
  | _ => true

/-- No bigint occurs anywhere in the list. -/
def noBigList : List JSValue → Bool
  | [] => true
  | x :: xs => noBig x && noBigList xs

/-- No bigint occurs among the field values. -/
def noBigFields : List (String × JSValue) → Bool
  | [] => true
  | (_, v) :: rest => noBig v && noBigFields rest

end

/-- A well-formed environment used for concrete runs: the three required
variables set, everything else unset. -/
def env0 : Env :=
  { host := some "localhost", user := some "root", password := some "pw" }

/-- An environment missing the password, used for configuration-error
runs. -/
def envNoPass : Env :=
  { host := some "localhost", user := some "root" }

/-- A driver oracle for concrete runs: acquisition and the `USE`
statement succeed and the main query returns an empty array. -/
def drv0 : Driver :=
  { getConnection := Except.ok ()
    useDatabase := fun _ => Except.ok ()
    query := fun _ _ => Except.ok { value := JSValue.varr [], meta := some [] } }

/-- The module state after creating a pool and then calling
`endConnection`: the closed pool is still installed. -/
def sClosed : MState :=
  endConnection (createConnectionPool env0 initState).2

/-- An environment with the range check turned on. -/
def envChk : Env :=
  { checkNumberRange := some "true" }

/-- The pool that `createConnectionPool env0 initState` installs. -/
def pool0 : Pool :=
  { id := 0
    host := "localhost"
    port := some 3306
    user := "root"
    password := "pw"
    database := none
    connectionLimit := 2
    connectTimeout := DEFAULT_TIMEOUT
    bigIntAsNumber := false
    decimalAsNumber := false
    checkNumberRange := false
    closed := false }

/-- A module state with an open pool installed and no lease held. -/
def sPool : MState :=
  { pool := some pool0, connection := none, nextPoolId := 1 }

/-- A module state in which a lease (id 7) is currently held. -/
def sHeld : MState :=
  { pool := some pool0, connection := some 7, nextPoolId := 1, nextLeaseId := 8,
    outstanding := 1 }

/-- A result set of 1001 one-column rows, for the row-cap run. -/
def xs1001 : List JSValue :=
  List.replicate 1001 (JSValue.vobj [("n", JSValue.vnum 1)])

/-- A driver oracle whose main query returns the 1001-row result set. -/
def drvRows : Driver :=
  { getConnection := Except.ok ()
    useDatabase := fun _ => Except.ok ()
    query := fun _ _ => Except.ok { value := JSValue.varr xs1001, meta := some ["n"] } }

/-- A nested result structure with bigints at two different depths. -/
def vEx : JSValue :=
  JSValue.varr
    [JSValue.varr [JSValue.vobj [("a", JSValue.vbig 3), ("b", JSValue.vstr "x")]],
     JSValue.vobj [("c", JSValue.vbig (-5))]]

/-- Conversion leaves any bigint-free value unchanged. -/
theorem convertScalar_ok_of_noBig (env : Env) (v : JSValue) (h : noBig v = true) :
    convertScalar env v = Except.ok v := by
  cases v <;> simp_all [convertScalar, noBig]

/-- Field conversion leaves bigint-free records unchanged. -/
theorem convertFields_id_of_noBigFields (env : Env) :
    (fs : List (String × JSValue)) → noBigFields fs = true →
    convertFields env fs = Except.ok fs
  | [], _ => rfl
  | (k, v) :: rest, h => by
      have h' : noBig v = true ∧ noBigFields rest = true := by
        simpa [noBigFields, Bool.and_eq_true] using h
      have h1 := convertScalar_ok_of_noBig env v h'.1
      have h2 := convertFields_id_of_noBigFields env rest h'.2
      simp [convertFields, h1, h2]

mutual

/-- Normalization is the identity on bigint-free values. -/
theorem normalizeRow_id_of_noBig (env : Env) : (v : JSValue) → noBig v = true →
    normalizeRow env v = Except.ok v
  | JSValue.varr xs, h => by
      have hl := normalizeList_id_of_noBig env xs (by simpa [noBig] using h)
      simp [normalizeRow, hl]
  | JSValue.vobj fs, h => by
      have hf := convertFields_id_of_noBigFields env fs (by simpa [noBig] using h)
      simp [normalizeRow, hf]
  | JSValue.vnull, _ => rfl
  | JSValue.vbool _, _ => rfl
  | JSValue.vnum _, _ => rfl
  | JSValue.vbig _, h => by simp [noBig] at h
  | JSValue.vstr _, _ => rfl

/-- List normalization is the identity on bigint-free lists. -/
theorem normalizeList_id_of_noBig (env : Env) : (xs : List JSValue) → noBigList xs = true →
    normalizeList env xs = Except.ok xs
  | [], _ => rfl
  | x :: xs, h => by
      have h' : noBig x = true ∧ noBigList xs = true := by
        simpa [noBigList, Bool.and_eq_true] using h
      have h1 := normalizeRow_id_of_noBig env x h'.1
      have h2 := normalizeList_id_of_noBig env xs h'.2
      simp [normalizeList, h1, h2]

end

/-- Any successful conversion of a scalar yields its `bigToNum` image. -/
theorem convertScalar_shaped (env : Env) (v w : JSValue) (hs : isScalar v = true)
    (h : convertScalar env v = Except.ok w) : w = bigToNum v := by
  cases v with
  | vbig i =>
      simp only [convertScalar] at h
      split at h
      · exact absurd h (by simp)
      · simpa [bigToNum] using h.symm
  | varr xs => simp [isScalar] at hs
  | vobj fs => simp [isScalar] at hs
  | vnull => simpa [bigToNum] using (Except.ok.inj h).symm
  | vbool b => simpa [bigToNum] using (Except.ok.inj h).symm
  | vnum i => simpa [bigToNum] using (Except.ok.inj h).symm
  | vstr s => simpa [bigToNum] using (Except.ok.inj h).symm

/-- Any successful field conversion of a record with scalar fields yields
its `bigToNumFields` image. -/
theorem convertFields_shaped (env : Env) :
    (fs gs : List (String × JSValue)) → scalarFields fs = true →
    convertFields env fs = Except.ok gs → gs = bigToNumFields fs
  | [], gs, _, h => by simpa [convertFields, bigToNumFields] using (Except.ok.inj h).symm
  | (k, v) :: rest, gs, hs, h => by
      have hs' : isScalar v = true ∧ scalarFields rest = true := by
        simpa [scalarFields, Bool.and_eq_true] using hs
      simp only [convertFields] at h
      cases h1 : convertScalar env v with
      | error e => rw [h1] at h; exact absurd h (by simp)
      | ok v' =>
        rw [h1] at h
        cases h2 : convertFields env rest with
        | error e => rw [h2] at h; exact absurd h (by simp)
        | ok rest' =>
          rw [h2] at h
          have hv := convertScalar_shaped env v v' hs'.1 h1
          have hr := convertFields_shaped env rest rest' hs'.2 h2
          simp [bigToNumFields, ← hv, ← hr]
          exact (Except.ok.inj h).symm

mutual

/-- Any successful normalization of a result-shaped value yields its
`bigToNum` image. -/
theorem normalizeRow_shaped (env : Env) : (v : JSValue) → ResultShaped v = true →
    ∀ w, normalizeRow env v = Except.ok w → w = bigToNum v
  | JSValue.varr xs, hs, w, h => by
      simp only [normalizeRow] at h
      cases h1 : normalizeList env xs with
      | error e => rw [h1] at h; exact absurd h (by simp)
      | ok ys =>
        rw [h1] at h
        have := normalizeList_shaped env xs (by simpa [ResultShaped] using hs) ys h1
        simpa [bigToNum, ← this] using (Except.ok.inj h).symm
  | JSValue.vobj fs, hs, w, h => by
      simp only [normalizeRow] at h
      cases h1 : convertFields env fs with
      | error e => rw [h1] at h; exact absurd h (by simp)
      | ok gs =>
        rw [h1] at h
        have := convertFields_shaped env fs gs (by simpa [ResultShaped] using hs) h1
        simpa [bigToNum, ← this] using (Except.ok.inj h).symm
  | JSValue.vnull, hs, _, _ => by simp [ResultShaped] at hs
  | JSValue.vbool _, hs, _, _ => by simp [ResultShaped] at hs
  | JSValue.vnum _, hs, _, _ => by simp [ResultShaped] at hs
  | JSValue.vbig _, hs, _, _ => by simp [ResultShaped] at hs
  | JSValue.vstr _, hs, _, _ => by simp [ResultShaped] at hs

/-- Any successful normalization of a result-shaped list yields its
`bigToNumList` image. -/
theorem normalizeList_shaped (env : Env) : (xs : List JSValue) → resultShapedList xs = true →
    ∀ ys, normalizeList env xs = Except.ok ys → ys = bigToNumList xs
  | [], _, ys, h => by simpa [bigToNumList] using (Except.ok.inj h).symm
  | x :: xs, hs, ys, h => by
      have hs' : ResultShaped x = true ∧ resultShapedList xs = true := by
        simpa [resultShapedList, Bool.and_eq_true] using hs
      simp only [normalizeList] at h
      cases h1 : normalizeRow env x with
      | error e => rw [h1] at h; exact absurd h (by simp)
      | ok y =>
        rw [h1] at h
        cases h2 : normalizeList env xs with
        | error e => rw [h2] at h; exact absurd h (by simp)
        | ok ys' =>
          rw [h2] at h
          have hy := normalizeRow_shaped env x hs'.1 y h1
          have hys := normalizeList_shaped env xs hs'.2 ys' h2
          simp [bigToNumList, ← hy, ← hys]
          exact (Except.ok.inj h).symm

end

/-- With the range check off, scalar conversion always succeeds with the
`bigToNum` image. -/
theorem convertScalar_checkOff (env : Env) (hc : ¬ env.checkNumberRange = some "true")
    (v : JSValue) (hs : isScalar v = true) :
    convertScalar env v = Except.ok (bigToNum v) := by
  cases v <;> simp_all [convertScalar, bigToNum, isScalar]

/-- With the range check off, field conversion always succeeds with the
`bigToNumFields` image. -/
theorem convertFields_checkOff (env : Env) (hc : ¬ env.checkNumberRange = some "true") :
    (fs : List (String × JSValue)) → scalarFields fs = true →
    convertFields env fs = Except.ok (bigToNumFields fs)
  | [], _ => rfl
  | (k, v) :: rest, hs => by
      have hs' : isScalar v = true ∧ scalarFields rest = true := by
        simpa [scalarFields, Bool.and_eq_true] using hs
      have h1 := convertScalar_checkOff env hc v hs'.1
      have h2 := convertFields_checkOff env hc rest hs'.2
      simp [convertFields, h1, h2, bigToNumFields]

mutual

/-- With the range check off, normalization of a result-shaped value
always succeeds with the `bigToNum` image. -/
theorem normalizeRow_checkOff (env : Env) (hc : ¬ env.checkNumberRange = some "true") :
    (v : JSValue) → ResultShaped v = true →
    normalizeRow env v = Except.ok (bigToNum v)
  | JSValue.varr xs, hs => by
      have hl := normalizeList_checkOff env hc xs (by simpa [ResultShaped] using hs)
      simp [normalizeRow, hl, bigToNum]
  | JSValue.vobj fs, hs => by
      have hf := convertFields_checkOff env hc fs (by simpa [ResultShaped] using hs)
      simp [normalizeRow, hf, bigToNum]
  | JSValue.vnull, hs => by simp [ResultShaped] at hs
  | JSValue.vbool _, hs => by simp [ResultShaped] at hs
  | JSValue.vnum _, hs => by simp [ResultShaped] at hs
  | JSValue.vbig _, hs => by simp [ResultShaped] at hs
  | JSValue.vstr _, hs => by simp [ResultShaped] at hs

/-- With the range check off, normalization of a result-shaped list
always succeeds with the `bigToNumList` image. -/
theorem normalizeList_checkOff (env : Env) (hc : ¬ env.checkNumberRange = some "true") :
    (xs : List JSValue) → resultShapedList xs = true →
    normalizeList env xs = Except.ok (bigToNumList xs)
  | [], _ => rfl
  | x :: xs, hs => by
      have hs' : ResultShaped x = true ∧ resultShapedList xs = true := by
        simpa [resultShapedList, Bool.and_eq_true] using hs
      have h1 := normalizeRow_checkOff env hc x hs'.1
      have h2 := normalizeList_checkOff env hc xs hs'.2
      simp [normalizeList, h1, h2, bigToNumList]

end

/-- Whatever happens inside the guarded body, the `finally` release
restores the module state: the held-lease reference is cleared and the
outstanding count, the pool and the pool counter are unchanged relative
to the call's start when no lease was held at entry. -/
theorem executeWithPool_state (env : Env) (drv : Driver) (sql : String) (params : List JSValue)
    (database : Option String) (p : Pool) (s : MState) (h : s.connection = none) :
    (executeWithPool env drv sql params database p s).2.1.connection = none ∧
    (executeWithPool env drv sql params database p s).2.1.outstanding = s.outstanding ∧
    (executeWithPool env drv sql params database p s).2.1.pool = s.pool ∧
    (executeWithPool env drv sql params database p s).2.1.nextPoolId = s.nextPoolId := by
  unfold executeWithPool acquireConn
  rw [h]
  by_cases hcl : p.closed
  · simp [hcl, releaseFinally, h]
  · simp only [hcl]
    cases hg : drv.getConnection with
    | error e => simp [releaseFinally, h]
    | ok u => simp [releaseFinally]

/-- On every exit path of `executeQuery`, starting from a state with no
held lease, the held-lease reference ends cleared and the outstanding
count is restored. -/
theorem executeQuery_state (env : Env) (drv : Driver) (sql : String) (params : List JSValue)
    (database : Option String) (s : MState) (h : s.connection = none) :
    (executeQuery env drv sql params database s).2.1.connection = none ∧
    (executeQuery env drv sql params database s).2.1.outstanding = s.outstanding := by
  unfold executeQuery
  cases hp : s.pool with
  | some p =>
      have hw := executeWithPool_state env drv sql params database p s h
      exact ⟨hw.1, hw.2.1⟩
  | none =>
      unfold createConnectionPool
      cases hc : getConfigFromEnv env with
      | error e => exact ⟨h, rfl⟩
      | ok c =>
          rw [hp]
          have hw := executeWithPool_state env drv sql params database (freshPool c s)
            { s with pool := some (freshPool c s), nextPoolId := s.nextPoolId + 1 } h
          exact ⟨hw.1, hw.2.1⟩

/-- The guarded body after acquisition never emits a lease-acquisition
event: only `USE` and query events. -/
theorem queryBody_no_acquire (env : Env) (drv : Driver) (sql : String) (params : List JSValue)
    (database : Option String) (acqRes : Except String Nat) (n : Nat) :
    Event.acquiredLease n ∉ (queryBody env drv sql params database acqRes).2 := by
  unfold queryBody
  rcases acqRes with e | l
  · simp
  · rcases database with _ | db
    · simp only []
      split <;> try simp
      split <;> try simp
      split <;> simp
    · simp only []
      rcases hu : drv.useDatabase db with e | u
      · simp [hu]
      · simp only [hu]
        split <;> try simp
        split <;> try simp
        split <;> simp


/-- Claim C1 (counterexample): a rejected statement still touches the
connection: on a fresh state, `executeQuery` for a DELETE with the
delete flag unset fails with the validation error, yet its trace shows a
lease checked out of the pool and a database-switch statement issued
before the rejection. -/
theorem executeQuery_rejected_touches_connection :
    isAlloowedQueryEnv env0 "DELETE FROM t" = false ∧
    (executeQuery env0 drv0 "DELETE FROM t" [] (some "mydb") initState).1 =
      Except.error "Query not allowed" ∧
    (executeQuery env0 drv0 "DELETE FROM t" [] (some "mydb") initState).2.2 =
      [Event.acquiredLease 0, Event.issuedUse "mydb", Event.releasedLease 0] :=
  ⟨rfl, rfl, by decide⟩

/-- Claim C1 (amended): when the validator rejects the SQL and the run
reaches the validation step (open pool installed, no lease held,
acquisition and any database switch succeed), the call fails with the
validation error and the query itself is never issued to the database;
the lease acquired before the rejection is released, the held-lease
reference is cleared and the outstanding-lease count is restored. -/
theorem executeQuery_validation_rejected (env : Env) (drv : Driver) (sql : String)
    (params : List JSValue) (database : Option String) (s : MState) (p : Pool)
    (hp : s.pool = some p) (hcl : p.closed = false) (hc : s.connection = none)
    (hg : drv.getConnection = Except.ok ())
    (hu : ∀ db, database = some db → drv.useDatabase db = Except.ok ())
    (hv : isAlloowedQueryEnv env sql = false) :
    (executeQuery env drv sql params database s).1 = Except.error "Query not allowed" ∧
    (∀ q, Event.issuedQuery q ∉ (executeQuery env drv sql params database s).2.2) ∧
    (executeQuery env drv sql params database s).2.1.connection = none ∧
    (executeQuery env drv sql params database s).2.1.outstanding = s.outstanding := by
  have hstate := executeQuery_state env drv sql params database s hc
  refine ⟨?_, ?_, hstate.1, hstate.2⟩
  · unfold executeQuery
    rw [hp]
    unfold executeWithPool acquireConn
    rw [hc]
    simp only [hcl, Bool.false_eq_true, if_false, hg]
    rcases database with _ | db
    · unfold queryBody; simp [hv]
    · have hdb := hu db rfl
      unfold queryBody; simp [hv, hdb]
  · intro q
    unfold executeQuery
    rw [hp]
    unfold executeWithPool acquireConn
    rw [hc]
    simp only [hcl, Bool.false_eq_true, if_false, hg]
    rcases database with _ | db
    · unfold queryBody; simp [hv, releaseFinally]
    · have hdb := hu db rfl
      unfold queryBody; simp [hv, hdb, releaseFinally]

/-- Witness for the amended C1 theorem at a concrete rejected DELETE. -/
theorem executeQuery_validation_rejected_witness :
    isAlloowedQueryEnv env0 "DELETE FROM t" = false ∧
    (executeQuery env0 drv0 "DELETE FROM t" [] (some "mydb") sPool).1 =
      Except.error "Query not allowed" ∧
    (executeQuery env0 drv0 "DELETE FROM t" [] (some "mydb") sPool).2.1.outstanding =
      sPool.outstanding :=
  ⟨rfl,
   (executeQuery_validation_rejected env0 drv0 "DELETE FROM t" [] (some "mydb") sPool pool0
      rfl rfl rfl rfl (fun _ _ => rfl) rfl).1,
   (executeQuery_validation_rejected env0 drv0 "DELETE FROM t" [] (some "mydb") sPool pool0
      rfl rfl rfl rfl (fun _ _ => rfl) rfl).2.2.2⟩


/-- Claim C2: on every exit path of `executeQuery` (success, validation
failure, database-switch failure, execution failure, timeout as a driver
error, normalization failure), any lease held is released and the
held-lease reference is cleared before the result or error is returned,
so the outstanding-lease count after the call equals its pre-call
value. -/
theorem executeQuery_no_lease_leak (env : Env) (drv : Driver) (sql : String)
    (params : List JSValue) (database : Option String) (s : MState)
    (h : s.connection = none) :
    (executeQuery env drv sql params database s).2.1.connection = none ∧
    (executeQuery env drv sql params database s).2.1.outstanding = s.outstanding :=
  executeQuery_state env drv sql params database s h

/-- Witness for C2 at a concrete successful run from the initial state. -/
theorem executeQuery_no_lease_leak_witness :
    initState.connection = none ∧
    (executeQuery env0 drv0 "SELECT 1" [] none initState).2.1.connection = none ∧
    (executeQuery env0 drv0 "SELECT 1" [] none initState).2.1.outstanding =
      initState.outstanding :=
  ⟨rfl,
   (executeQuery_no_lease_leak env0 drv0 "SELECT 1" [] none initState rfl).1,
   (executeQuery_no_lease_leak env0 drv0 "SELECT 1" [] none initState rfl).2⟩

/-- Claim C3: when a lease is already held at the start of an
invocation, `executeQuery` reuses it: no lease is checked out of the
pool (no acquisition event, lease counter unchanged) and the held lease
is the one released at the end of the call. -/
theorem executeQuery_reuses_held_lease (env : Env) (drv : Driver) (sql : String)
    (params : List JSValue) (database : Option String) (s : MState) (p : Pool) (l : Nat)
    (hp : s.pool = some p) (hc : s.connection = some l) :
    (∀ n, Event.acquiredLease n ∉ (executeQuery env drv sql params database s).2.2) ∧
    (executeQuery env drv sql params database s).2.1.nextLeaseId = s.nextLeaseId ∧
    Event.releasedLease l ∈ (executeQuery env drv sql params database s).2.2 := by
  unfold executeQuery
  rw [hp]
  unfold executeWithPool acquireConn
  rw [hc]
  refine ⟨?_, ?_, ?_⟩
  · intro n
    simp only [releaseFinally, hc, List.nil_append, List.mem_append]
    rintro (hmem | hmem)
    · exact queryBody_no_acquire env drv sql params database (Except.ok l) n hmem
    · simp at hmem
  · simp [releaseFinally, hc]
  · simp [releaseFinally, hc]

/-- Witness for C3 at a concrete state holding lease 7. -/
theorem executeQuery_reuses_held_lease_witness :
    sHeld.connection = some 7 ∧
    (∀ n, Event.acquiredLease n ∉ (executeQuery env0 drv0 "SELECT 1" [] none sHeld).2.2) ∧
    Event.releasedLease 7 ∈ (executeQuery env0 drv0 "SELECT 1" [] none sHeld).2.2 :=
  ⟨rfl,
   (executeQuery_reuses_held_lease env0 drv0 "SELECT 1" [] none sHeld pool0 7 rfl rfl).1,
   (executeQuery_reuses_held_lease env0 drv0 "SELECT 1" [] none sHeld pool0 7 rfl rfl).2.2⟩

/-- Claim C4 (code behaviour at the failing input): after `endConnection`
the closed pool is still installed; a subsequent `executeQuery` does not
reconstruct a pool — the module state is unchanged (same pool id, pool
counter not advanced) and the call fails when acquisition on the closed
pool is rejected. -/
theorem executeQuery_after_end_reuses_closed_pool :
    sClosed.pool = some { pool0 with closed := true } ∧
    (executeQuery env0 drv0 "SELECT 1" [] none sClosed).1 = Except.error "pool is closed" ∧
    (executeQuery env0 drv0 "SELECT 1" [] none sClosed).2.1 = sClosed ∧
    (executeQuery env0 drv0 "SELECT 1" [] none sClosed).2.2 = [] :=
  ⟨rfl, rfl, rfl, rfl⟩

/-- Claim C5: a bigint whose magnitude exceeds `MAX_SAFE` is rejected
with the range error naming the value when the range check is enabled,
and coerced to a number without error when it is disabled. -/
theorem convertScalar_bigint_range (envT envF : Env) (v : Int)
    (hT : envT.checkNumberRange = some "true")
    (hF : ¬ envF.checkNumberRange = some "true")
    (hv : MAX_SAFE < v ∨ v < -MAX_SAFE) :
    convertScalar envT (JSValue.vbig v) =
      Except.error ("BIGINT out of safe JS range: " ++ toString v) ∧
    convertScalar envF (JSValue.vbig v) = Except.ok (JSValue.vnum v) := by
  constructor
  · simp [convertScalar, hT, hv]
  · simp [convertScalar, hF]

/-- Witness for C5 at the first unsafe integer, `2 ^ 53`. -/
theorem convertScalar_bigint_range_witness :
    envChk.checkNumberRange = some "true" ∧
    MAX_SAFE < (9007199254740992 : Int) ∧
    convertScalar envChk (JSValue.vbig 9007199254740992) =
      Except.error ("BIGINT out of safe JS range: " ++ toString (9007199254740992 : Int)) ∧
    convertScalar env0 (JSValue.vbig 9007199254740992) =
      Except.ok (JSValue.vnum 9007199254740992) :=
  ⟨rfl, by decide,
   (convertScalar_bigint_range envChk env0 9007199254740992 rfl (by decide)
      (Or.inl (by decide))).1,
   (convertScalar_bigint_range envChk env0 9007199254740992 rfl (by decide)
      (Or.inl (by decide))).2⟩


/-- Claim C6: when the driver returns an array of more than 1000 rows
(bigint-free, so normalization is the identity), `executeQuery` returns
exactly the first 1000 rows in their original order inside a plain
successful result — no error and no truncation flag. -/
theorem executeQuery_row_cap (env : Env) (drv : Driver) (sql : String) (params : List JSValue)
    (s : MState) (p : Pool) (xs : List JSValue) (meta : Option (List String))
    (hp : s.pool = some p) (hcl : p.closed = false) (hc : s.connection = none)
    (hg : drv.getConnection = Except.ok ())
    (hv : isAlloowedQueryEnv env sql = true)
    (hq : drv.query sql params = Except.ok { value := JSValue.varr xs, meta := meta })
    (hlen : DEFAULT_ROW_LIMIT < xs.length)
    (hnb : noBigList (xs.take DEFAULT_ROW_LIMIT) = true) :
    (executeQuery env drv sql params none s).1 =
      Except.ok { rows := JSValue.varr (xs.take DEFAULT_ROW_LIMIT), fields := meta.getD [] } := by
  have hnorm : normalizeRow env (JSValue.varr (xs.take DEFAULT_ROW_LIMIT)) =
      Except.ok (JSValue.varr (xs.take DEFAULT_ROW_LIMIT)) :=
    normalizeRow_id_of_noBig env _ (by simpa [noBig] using hnb)
  unfold executeQuery
  rw [hp]
  unfold executeWithPool acquireConn
  rw [hc]
  simp only [hcl, Bool.false_eq_true, if_false, hg]
  unfold queryBody
  simp [hv, hq, limitRows, hlen, hnorm]

set_option maxRecDepth 40000 in
/-- Witness for C6 at a concrete 1001-row result set. -/
theorem executeQuery_row_cap_witness :
    DEFAULT_ROW_LIMIT < xs1001.length ∧
    (executeQuery env0 drvRows "SELECT 1" [] none sPool).1 =
      Except.ok { rows := JSValue.varr (xs1001.take DEFAULT_ROW_LIMIT), fields := ["n"] } :=
  ⟨by decide,
   executeQuery_row_cap env0 drvRows "SELECT 1" [] sPool pool0 xs1001 (some ["n"])
     rfl rfl rfl rfl rfl rfl (by decide) (by decide)⟩


/-- Claim C7: under a resolvable configuration, `createConnectionPool`
is idempotent: it yields a pool and a state from which a second call
returns the identical pool with the state unchanged; when a pool already
exists it is that pool and the state is untouched, and when none exists
the fresh pool has `connectTimeout` of 10 seconds and fixed capacity
2. -/
theorem createConnectionPool_idempotent (env : Env) (s : MState) (c : MariaDBConfig)
    (hc : getConfigFromEnv env = Except.ok c) :
    ∃ p s1, createConnectionPool env s = (Except.ok p, s1) ∧
      createConnectionPool env s1 = (Except.ok p, s1) ∧
      (∀ q, s.pool = some q → p = q ∧ s1 = s) ∧
      (s.pool = none → p.connectTimeout = DEFAULT_TIMEOUT ∧ p.connectionLimit = 2) := by
  cases hp : s.pool with
  | some q =>
      refine ⟨q, s, ?_, ?_, ?_, ?_⟩
      · unfold createConnectionPool; rw [hc, hp]
      · unfold createConnectionPool; rw [hc, hp]
      · intro q' hq'
        exact ⟨Option.some.inj hq', rfl⟩
      · intro hnone; exact absurd hnone (by simp)
  | none =>
      refine ⟨freshPool c s,
        { s with pool := some (freshPool c s), nextPoolId := s.nextPoolId + 1 },
        ?_, ?_, ?_, ?_⟩
      · unfold createConnectionPool; rw [hc, hp]
      · unfold createConnectionPool; rw [hc]
      · intro q hq; exact absurd hq (by simp)
      · intro _; exact ⟨rfl, rfl⟩

/-- Witness for C7 on the initial state under `env0`. -/
theorem createConnectionPool_idempotent_witness :
    (∃ c, getConfigFromEnv env0 = Except.ok c) ∧
    (∃ p s1, createConnectionPool env0 initState = (Except.ok p, s1) ∧
      createConnectionPool env0 s1 = (Except.ok p, s1) ∧
      (∀ q, initState.pool = some q → p = q ∧ s1 = initState) ∧
      (initState.pool = none → p.connectTimeout = DEFAULT_TIMEOUT ∧ p.connectionLimit = 2)) :=
  ⟨⟨_, rfl⟩, createConnectionPool_idempotent env0 initState _ rfl⟩

/-- Claim C10: `createConnectionPool` resolves and validates the
environment before looking at the installed pool: with a required
setting missing, the call throws the configuration error and leaves the
state — including the installed pool — unchanged, returning no pool. -/
theorem createConnectionPool_reads_config_first (env : Env) (s : MState) (p : Pool) (e : String)
    (_hp : s.pool = some p) (he : getConfigFromEnv env = Except.error e) :
    createConnectionPool env s = (Except.error e, s) := by
  unfold createConnectionPool
  rw [he]

/-- Witness for C10: a missing password with a pool installed. -/
theorem createConnectionPool_reads_config_first_witness :
    sPool.pool = some pool0 ∧
    getConfigFromEnv envNoPass =
      Except.error "MARIADB_PASSWORD environment variable is required" ∧
    createConnectionPool envNoPass sPool =
      (Except.error "MARIADB_PASSWORD environment variable is required", sPool) :=
  ⟨rfl, rfl,
   createConnectionPool_reads_config_first envNoPass sPool pool0
     "MARIADB_PASSWORD environment variable is required" rfl rfl⟩


/-- Claim C8: on any result-shaped structure (arbitrarily nested arrays
of records with scalar fields), normalization converts every bigint
anywhere inside — any successful run returns exactly the structure with
each bigint replaced by its number and every other scalar unchanged —
and with the range check off it always succeeds with that structure. -/
theorem normalizeRow_converts_every_bigint (env : Env) (v : JSValue)
    (hs : ResultShaped v = true) :
    (∀ w, normalizeRow env v = Except.ok w → w = bigToNum v) ∧
    (¬ env.checkNumberRange = some "true" → normalizeRow env v = Except.ok (bigToNum v)) :=
  ⟨fun w hw => normalizeRow_shaped env v hs w hw,
   fun hc => normalizeRow_checkOff env hc v hs⟩

/-- Witness for C8 at a nested structure with bigints at two depths. -/
theorem normalizeRow_converts_every_bigint_witness :
    ResultShaped vEx = true ∧
    normalizeRow env0 vEx = Except.ok (bigToNum vEx) ∧
    bigToNum vEx =
      JSValue.varr
        [JSValue.varr [JSValue.vobj [("a", JSValue.vnum 3), ("b", JSValue.vstr "x")]],
         JSValue.vobj [("c", JSValue.vnum (-5))]] :=
  ⟨rfl, (normalizeRow_converts_every_bigint env0 vEx rfl).2 (by decide), rfl⟩

/-- Claim C9: configuration resolution fails with a configuration error
whenever the host, user or password variable is absent or empty — and
then `createConnectionPool` propagates the error touching no state, so
no pool is constructed; when all three are non-empty it succeeds, the
port defaults to 3306 when the port variable is unset or empty, and each
boolean flag is true exactly when its variable equals the string
true. -/
theorem getConfigFromEnv_required_and_defaults (env : Env) :
    ((jsFalsy env.host = true ∨ jsFalsy env.user = true ∨ jsFalsy env.password = true) →
      (∃ e, getConfigFromEnv env = Except.error e) ∧
      (∀ s, ∃ e, createConnectionPool env s = (Except.error e, s))) ∧
    (jsFalsy env.host = false → jsFalsy env.user = false → jsFalsy env.password = false →
      ∃ c, getConfigFromEnv env = Except.ok c ∧
        (jsFalsy env.portStr = true → c.port = some 3306) ∧
        (c.allow_insert = true ↔ env.allowInsert = some "true") ∧
        (c.allow_update = true ↔ env.allowUpdate = some "true") ∧
        (c.allow_delete = true ↔ env.allowDelete = some "true") ∧
        (c.big_int_as_number = true ↔ env.bigIntAsNumber = some "true") ∧
        (c.decimal_as_number = true ↔ env.decimalAsNumber = some "true") ∧
        (c.check_number_range = true ↔ env.checkNumberRange = some "true")) := by
  constructor
  · intro h
    have herr : ∃ e, getConfigFromEnv env = Except.error e := by
      unfold getConfigFromEnv
      by_cases h1 : jsFalsy env.host
      · exact ⟨"MARIADB_HOST environment variable is required", by simp [h1]⟩
      · by_cases h2 : jsFalsy env.user
        · exact ⟨"MARIADB_USER environment variable is required", by simp [h1, h2]⟩
        · by_cases h3 : jsFalsy env.password
          · exact ⟨"MARIADB_PASSWORD environment variable is required", by simp [h1, h2, h3]⟩
          · rcases h with h | h | h <;> simp_all
    refine ⟨herr, ?_⟩
    intro s
    obtain ⟨e, he⟩ := herr
    exact ⟨e, by unfold createConnectionPool; rw [he]⟩
  · intro h1 h2 h3
    cases hcfg : getConfigFromEnv env with
    | error e =>
        exfalso
        unfold getConfigFromEnv at hcfg
        simp [h1, h2, h3] at hcfg
    | ok c =>
        unfold getConfigFromEnv at hcfg
        simp only [h1, h2, h3, Bool.false_eq_true, if_false, Except.ok.injEq] at hcfg
        refine ⟨c, rfl, ?_, ?_, ?_, ?_, ?_, ?_, ?_⟩ <;> rw [← hcfg]
        · intro hps; simp [hps]
        · exact decide_eq_true_iff
        · exact decide_eq_true_iff
        · exact decide_eq_true_iff
        · exact decide_eq_true_iff
        · exact decide_eq_true_iff
        · exact decide_eq_true_iff


/-- Witness for C9: a missing password fails; a complete environment
succeeds with the defaults. -/
theorem getConfigFromEnv_required_and_defaults_witness :
    ((∃ e, getConfigFromEnv envNoPass = Except.error e) ∧
     (∀ s, ∃ e, createConnectionPool envNoPass s = (Except.error e, s))) ∧
    (∃ c, getConfigFromEnv env0 = Except.ok c ∧
      (jsFalsy env0.portStr = true → c.port = some 3306) ∧
      (c.allow_insert = true ↔ env0.allowInsert = some "true") ∧
      (c.allow_update = true ↔ env0.allowUpdate = some "true") ∧
      (c.allow_delete = true ↔ env0.allowDelete = some "true") ∧
      (c.big_int_as_number = true ↔ env0.bigIntAsNumber = some "true") ∧
      (c.decimal_as_number = true ↔ env0.decimalAsNumber = some "true") ∧
      (c.check_number_range = true ↔ env0.checkNumberRange = some "true")) :=
  ⟨(getConfigFromEnv_required_and_defaults envNoPass).1 (Or.inr (Or.inr rfl)),
   (getConfigFromEnv_required_and_defaults env0).2 rfl rfl rfl⟩

end MariadbMcp
